import Mathlib

/-!
Verification of the `rs-mod-derives` PostgreSQL derive macro.

The repository is a proc-macro crate; what we verify is the semantics of the
code it generates for an entity struct, embedded shallowly over an abstract
schema: the ordered field list with per-field attribute flags
(`src/postgresql_derive/src/lib.rs`, function `derive`), the four naming
projections, the generated row parser, the `result` wrapper, the accessors
(`clear_all`, `set_insert_id`, getters) and the `update()` statement builder.

Field inner values are collapsed to one abstract type `V`; an entity instance
is the list of per-field wrapper states, parallel to the schema's field list
(the generated struct has exactly one member per declared field, in
declaration order).
-/

set_option autoImplicit false
set_option maxRecDepth 8192

namespace RsModDerives

/--
Modelled from the spec: the tri-state nullable wrapper of the external `nulls`
crate (not part of this repository), distinguishing unset (`undefined`),
explicit absence (`null`) and a present value (`value`).  The spec calls the
test "field has a value OR field is absent" exhaustive for this type, so
`is_none` holds exactly when the wrapper does not hold a value.
-/
inductive Null (α : Type) : Type where
  | undefined : Null α
  | null : Null α
  | value : α → Null α
  deriving DecidableEq

namespace Null

/-- `Null::is_some`: true exactly on a present value. -/
def is_some {α : Type} : Null α → Bool
  | value _ => true
  | _ => false

/-- Modelled from the spec: `Null::is_none`, true exactly when no value is present. -/
def is_none {α : Type} (x : Null α) : Bool := !(x.is_some)

/-- Modelled from the spec: `Null::take`, the inner value as an `Option`. -/
def take {α : Type} : Null α → Option α
  | value v => some v
  | _ => none

/-- `nulls::new(v)`: a present value. -/
def new {α : Type} (v : α) : Null α := value v

/-- `nulls::undefined()`: the unset state. -/
def undef {α : Type} : Null α := undefined

/--
Modelled from the spec: `Null::from(row.try_get(..))` — a failed per-column
extraction is substituted by the unset state, a successful one is stored as a
present value.
-/
def fromExcept {α ε : Type} : Except ε α → Null α
  | .ok v => value v
  | .error _ => undefined

end Null

/--
One declared field of the entity: its identifier, its declared type rendered
to text with spaces removed (`derive_type_to_string`), and whether it carries
the `#[column]` attribute (`derive_is_attributed_field`).
-/
structure FieldDecl where
  name : String
  ty : String
  isAttributed : Bool
  deriving DecidableEq

/--
`str::to_lowercase`, written at the character-list level (the identifiers,
type texts and size tags it is applied to are ASCII).
-/
def strToLower (s : String) : String := String.mk (s.data.map Char.toLower)

/-- The source tests `ty_to_str.to_lowercase().starts_with("null<")`. -/
def FieldDecl.isNullable (f : FieldDecl) : Bool :=
  "null<".data.isPrefixOf (strToLower f.ty).data

/--
The entity schema the macro sees: resolved table name (after the
rename/snake-case step), declared alias list, ordered field list.
-/
structure Schema where
  tableName : String
  aliases : List String
  fields : List FieldDecl

/--
Modelled from the spec: `change_case::snake_case` of the external
`change_case` crate — insert an underscore at lower-to-upper boundaries, turn
spaces into single underscores, lower-case everything (matching the
documented examples in `derive_utils`: `MyVariable ↦ my_variable`,
`Some Function Name ↦ some_function_name`).
-/
def snakeGo : Option Char → List Char → List Char
  | _, [] => []
  | prev, c :: cs =>
    if c = ' ' then
      '_' :: snakeGo (some ' ') cs
    else if c.isUpper then
      match prev with
      | none => c.toLower :: snakeGo (some c) cs
      | some p =>
        if p = ' ' then c.toLower :: snakeGo (some c) cs
        else '_' :: c.toLower :: snakeGo (some c) cs
    else c :: snakeGo (some c) cs

/-- `derive_utils::derive_snake_case`: snake-case, then `to_lowercase`. -/
def derive_snake_case (name : String) : String :=
  strToLower (String.mk (snakeGo none name.data))

/-- `let plain = derive_utils::derive_snake_case(field.to_string())`. -/
def plainOf (f : FieldDecl) : String := derive_snake_case f.name

/-- `let renamed = format!("{}_{}", table_name, plain)` (the `{}` holes filled). -/
def renamedOf (t : String) (f : FieldDecl) : String := t ++ "_" ++ plainOf f

/-- `let tabled = format!("{}.{}", table_name, plain)`. -/
def tabledOf (t : String) (f : FieldDecl) : String := t ++ "." ++ plainOf f

/-- `let aliased = format!("{} AS {}", tabled, renamed)`. -/
def aliasedOf (t : String) (f : FieldDecl) : String :=
  tabledOf t f ++ " AS " ++ renamedOf t f

/-- `let aliased_renamed = format!("{}_{}", a, plain)` for a declared alias `a`. -/
def aliasRenamedOf (a : String) (f : FieldDecl) : String := a ++ "_" ++ plainOf f

/-- `let sub_aliased = format!("{} AS {}", tabled, aliased_renamed)`. -/
def subAliasedOf (t : String) (a : String) (f : FieldDecl) : String :=
  tabledOf t f ++ " AS " ++ aliasRenamedOf a f

/-- The fields pushed into the naming tables: those with the `#[column]` attribute. -/
def attributedFields (s : Schema) : List FieldDecl :=
  s.fields.filter (fun f => f.isAttributed)

/-- `all_plain`, in declaration order. -/
def allPlain (s : Schema) : List String := (attributedFields s).map plainOf

/-- `all_renamed`, in declaration order. -/
def allRenamed (s : Schema) : List String :=
  (attributedFields s).map (renamedOf s.tableName)

/-- `all_tabled`, in declaration order. -/
def allTabled (s : Schema) : List String :=
  (attributedFields s).map (tabledOf s.tableName)

/-- `all_aliased`, in declaration order. -/
def allAliased (s : Schema) : List String :=
  (attributedFields s).map (aliasedOf s.tableName)

/-- `alias::ALL = all_aliased.join(", ")`. -/
def aliasALL (s : Schema) : String := String.intercalate ", " (allAliased s)

/-- An entity instance: one wrapper state per declared field, in declaration order. -/
abbrev Inst (V : Type) := List (Null V)

/--
An abstract fetched row: column-keyed typed extraction, `row.try_get(key)`
returning either the value or an extraction failure (column missing, type
mismatch).
-/
abbrev Row (V : Type) := String → Except Unit V

/-- `Self::default()`: every field in the unset state. -/
def defaultInst (V : Type) (s : Schema) : Inst V :=
  s.fields.map (fun _ => Null.undefined)

/--
The generated base parser `parse`: start from `Self::default()` and, for every
attributed field, assign `Null::from(row.try_get(renamed_key))`; other fields
keep their default.
-/
def parse {V : Type} (s : Schema) (row : Row V) : Inst V :=
  s.fields.map (fun f =>
    if f.isAttributed then Null.fromExcept (row (renamedOf s.tableName f))
    else Null.undefined)

/-- The generated `is_empty`: structural equality with `Self::default()`. -/
def is_empty {V : Type} [DecidableEq V] (s : Schema) (i : Inst V) : Bool :=
  decide (i = defaultInst V s)

/--
Modelled from the spec: the error values of the external `responder` crate as
used here — `responder::query(e)` wrapping a failed fetch and
`responder::to(msg)` carrying the generated not-found message.
-/
inductive RespErr (ε : Type) : Type where
  | query : ε → RespErr ε
  | to : String → RespErr ε
  deriving DecidableEq

/-- `let error = format!("No matching record(s) found in {} table", table_name)`. -/
def errorMsg (s : Schema) : String :=
  "No matching record(s) found in " ++ s.tableName ++ " table"

/--
The generated `parsers::result`: `row.map_err(responder::query)?`, then parse,
then return the parsed entity when it is non-empty and the not-found error
otherwise.
-/
def parsersResult {V ε : Type} [DecidableEq V] (s : Schema) (row : Except ε (Row V)) :
    Except (RespErr ε) (Inst V) :=
  match row with
  | .error e => .error (.query e)
  | .ok r =>
    let parsed := parse s r
    if !(is_empty s parsed) then .ok parsed else .error (.to (errorMsg s))

/--
The generated getter for a `Null`-wrapped field:
`self.field.clone().take()`.  (Every attributed field is `Null`-wrapped: the
generated `parse` assigns `Null::from(..)` to each of them, which only
compiles at a `Null` type.)
-/
def prop_getter {V : Type} (x : Null V) : Option V := x.take

/-- The field/state pairs of an instance, in declaration order. -/
def fieldStates {V : Type} (s : Schema) (i : Inst V) : List (FieldDecl × Null V) :=
  s.fields.zip i

/-- The wrapper states of the attributed fields of an instance, in order. -/
def attributedStates {V : Type} (s : Schema) (i : Inst V) : List (Null V) :=
  ((fieldStates s i).filter (fun p => p.1.isAttributed)).map Prod.snd

/--
The update-relevant field/state pairs: `field != "id" && is_attributed`
(`all_update_fields`), in declaration order.
-/
def updatePairs {V : Type} (s : Schema) (i : Inst V) : List (FieldDecl × Null V) :=
  (fieldStates s i).filter (fun p => p.1.name != "id" && p.1.isAttributed)

/--
One SET fragment: the macro stores `"{field} = ${}"` in `all_update_columns`
and fills the placeholder with the running index at run time.
-/
def setFragment (f : FieldDecl) (idx : Nat) : String :=
  f.name ++ " = $" ++ toString idx

/--
The fragment-building loop of the generated `update()`: for each
non-identifier attributed field, if `is_some() || is_none()` then increment
the index and push the fragment.  Returns the fragments and the final index.
-/
def buildUpdates {V : Type} : List (FieldDecl × Null V) → Nat → (List String × Nat)
  | [], idx => ([], idx)
  | p :: rest, idx =>
    if p.2.is_some || p.2.is_none then
      let built := buildUpdates rest (idx + 1)
      (setFragment p.1 (idx + 1) :: built.1, built.2)
    else buildUpdates rest idx

/--
The bind loop of the generated `update()`: for each non-identifier attributed
field, if `is_some() || is_none()` then `query.bind(self.field())` — the
getter of a `Null`-wrapped field, i.e. `take`.
-/
def buildBinds {V : Type} : List (FieldDecl × Null V) → List (Option V)
  | [] => []
  | p :: rest =>
    if p.2.is_some || p.2.is_none then p.2.take :: buildBinds rest
    else buildBinds rest

/-- `self.id`: the state of the (first) field named `id`. -/
def idState {V : Type} (s : Schema) (i : Inst V) : Null V :=
  match (fieldStates s i).find? (fun p => p.1.name == "id") with
  | some p => p.2
  | none => Null.undefined

/--
The SQL text built by the generated `update()`:
`format!(r#"⏎␣20 UPDATE {} SET {} WHERE id = ${} RETURNING {}⏎␣16"#, table_name,
updates.join(", "), index, alias::ALL)` — the raw-string whitespace is kept
verbatim.
-/
def updateSql {V : Type} (s : Schema) (i : Inst V) : String :=
  let built := buildUpdates (updatePairs s i) 0
  "\n                    UPDATE " ++ s.tableName ++ " SET "
    ++ String.intercalate ", " built.1
    ++ " WHERE id = $" ++ toString (built.2 + 1)
    ++ " RETURNING " ++ aliasALL s
    ++ "\n                "

/-- The bound parameters of the generated `update()`: field binds, then `self.id()`. -/
def updateBinds {V : Type} (s : Schema) (i : Inst V) : List (Option V) :=
  buildBinds (updatePairs s i) ++ [(idState s i).take]

/--
The generated `update()`: build the statement, bind, execute one round trip
against the writer connection (abstracted as `db`), and feed the fetched
row-or-error to `parsers::result`.
-/
def update {V ε : Type} [DecidableEq V] (s : Schema)
    (db : String → List (Option V) → Except ε (Row V)) (i : Inst V) :
    Except (RespErr ε) (Inst V) :=
  parsersResult s (db (updateSql s i) (updateBinds s i))

/--
The generated `clear_all`: for every cleable (i.e. `Null`-typed) field, if
`!self.field.is_some()` then set it to `nulls::undefined()`; every other
field is untouched.
-/
def clear_all {V : Type} (s : Schema) (i : Inst V) : Inst V :=
  (fieldStates s i).map (fun p =>
    if p.1.isNullable && !(p.2.is_some) then Null.undefined else p.2)

/--
Modelled from the spec: one batch of fresh identifiers from the external
`ids` crate, one per size class (`ids::sm()`, `ids::md()`, `ids::lg()`,
`ids::max()`), each rendered with `to_string`.
-/
structure IdGen where
  sm : String
  md : String
  lg : String
  max : String

/-- The `match size.to_lowercase().as_str()` of the generated `set_insert_id`. -/
def chooseId (g : IdGen) (size : String) : String :=
  let sz := strToLower size
  if sz == "sm" then g.sm
  else if sz == "md" then g.md
  else if sz == "lg" then g.lg
  else g.max

/-- `self.id = x`: replace the state of the field named `id`. -/
def setIdField {V : Type} (s : Schema) (i : Inst V) (x : Null V) : Inst V :=
  (fieldStates s i).map (fun p => if p.1.name == "id" then x else p.2)

/--
The generated `set_insert_id`: read `self.id().unwrap_or_default()`; when it
is empty, choose a fresh identifier by size class and store it with
`nulls::new`; otherwise leave the instance unchanged.
-/
def set_insert_id (g : IdGen) (size : String) (s : Schema) (i : Inst String) :
    Inst String :=
  let idv := (idState s i).take.getD ""
  if idv.isEmpty then setIdField s i (Null.new (chooseId g size))
  else i

/--
The regex `^[^<]*<(.+)>$` of `derive_utils::derive_parse_inner_type`:
everything after the first `<` of the text, provided the text ends in `>` and
at least one character stands between; the greedy capture is that middle part.
First, the run of characters after the first `<`, if any.
-/
def afterFirstLt : List Char → Option (List Char)
  | [] => none
  | c :: cs => if c = '<' then some cs else afterFirstLt cs

/-- The capture group of `^[^<]*<(.+)>$` on a text, when the regex matches. -/
def regexCapture (s : String) : Option String :=
  match afterFirstLt s.data with
  | none => none
  | some post =>
    if post.getLast? = some '>' ∧ 2 ≤ post.length then
      some (String.mk post.dropLast)
    else none

/--
`derive_utils::derive_parse_inner_type`, over an abstract type parser
`parse_str` standing for the external `syn::parse_str::<Type>` (its verdict
"valid type expression or not" is not code of this repository): when the
regex matches, parse the captured inner text and return it, falling through
to the panic when that parse fails; when the regex does not match, parse the
whole text; the panic is embedded as the `Except.error` case.
-/
def derive_parse_inner_type {τ : Type} (parse_str : String → Option τ)
    (input : String) : Except String τ :=
  match regexCapture input with
  | some captured =>
    match parse_str captured with
    | some ty => .ok ty
    | none => .error "Invalid type string"
  | none =>
    match parse_str input with
    | some ty => .ok ty
    | none => .error "Invalid type string"

/--
The closed form the fragment loop produces when its guard holds for every
field: one consecutively-numbered SET fragment per field, in order, starting
above the given index.
-/
def allFragments : Nat → List FieldDecl → List String
  | _, [] => []
  | n, f :: fs => setFragment f (n + 1) :: allFragments (n + 1) fs

/--
A fetched row holding exactly the given columns with the given values: keys
outside the list fail extraction.
-/
def rowOf {V : Type} (keys : List String) (vals : List V) : Row V :=
  fun k =>
    match (keys.zip vals).find? (fun p => p.1 == k) with
    | some p => .ok p.2
    | none => .error ()

/--
Modelled from the spec: a concrete verdict function standing in for the
external type parser in the counterexample — the captured text
"String,String" (two types separated by a comma) is not a valid type
expression, while every other text in play is.
-/
def synOracle : String → Option String :=
  fun t => if t = "String,String" then none else some t

/--
The spec's concrete scenario: entity `User` renamed to table "users" with
alias "owner" and attributed fields id, name, email, each `Null`-wrapped.
-/
def userSchema : Schema where
  tableName := "users"
  aliases := ["owner"]
  fields :=
    [ { name := "id", ty := "Null<String>", isAttributed := true }
    , { name := "name", ty := "Null<String>", isAttributed := true }
    , { name := "email", ty := "Null<String>", isAttributed := true } ]

/-- A `users` instance with id and name set and email unset. -/
def uInst : Inst String := [Null.value "i1", Null.value "Ann", Null.undefined]

/-- A database stub whose single round trip fails. -/
def dbErr : String → List (Option String) → Except Unit (Row String) :=
  fun _ _ => .error ()

/-- A row where only the `users_name` column extracts; every other key fails. -/
def wRow : Row String :=
  fun k => if k == "users_name" then .ok "Ann" else .error ()

/-- A row where every column extraction fails. -/
def wRowErr : Row String := fun _ => .error ()

/-! ### Helper lemmas -/

theorem Null.guard_true {V : Type} (x : Null V) : (x.is_some || x.is_none) = true := by
  cases x <;> rfl

theorem zip_self_map {α β : Type} (l : List α) (g : α → β) :
    l.zip (l.map g) = l.map (fun a => (a, g a)) := by
  induction l with
  | nil => rfl
  | cons a l ih => simp [ih]

theorem buildUpdates_eq {V : Type} (ps : List (FieldDecl × Null V)) (n : Nat) :
    buildUpdates ps n = (allFragments n (ps.map Prod.fst), n + ps.length) := by
  induction ps generalizing n with
  | nil => simp [buildUpdates, allFragments]
  | cons p rest ih =>
    simp only [buildUpdates, Null.guard_true, if_true, ih, allFragments, List.map_cons,
      List.length_cons, Prod.mk.injEq]
    exact ⟨trivial, by omega⟩

theorem buildBinds_eq {V : Type} (ps : List (FieldDecl × Null V)) :
    buildBinds ps = ps.map (fun p => Null.take p.2) := by
  induction ps with
  | nil => rfl
  | cons p rest ih => simp [buildBinds, Null.guard_true, ih]

theorem updatePairsAux {V : Type} (fs : List FieldDecl) :
    ∀ i : List (Null V), i.length = fs.length →
      ((fs.zip i).filter (fun p => p.1.name != "id" && p.1.isAttributed)).map Prod.fst =
        fs.filter (fun f => f.name != "id" && f.isAttributed) := by
  induction fs with
  | nil => intro i h; simp
  | cons f fs ih =>
    intro i h
    cases i with
    | nil => simp at h
    | cons v vs =>
      have ih2 := ih vs (by simpa using h)
      simp only [List.zip_cons_cons, List.filter_cons]
      by_cases hq : (f.name != "id" && f.isAttributed) = true
      · simp only [hq, if_true, List.map_cons, ih2]
      · simp only [hq, if_false, Bool.false_eq_true, ih2]

theorem updatePairs_map_fst {V : Type} (s : Schema) (i : Inst V)
    (hlen : i.length = s.fields.length) :
    (updatePairs s i).map Prod.fst =
      s.fields.filter (fun f => f.name != "id" && f.isAttributed) :=
  updatePairsAux s.fields i hlen

theorem str_append_right_cancel {a t : String} (z : String) (h : a ++ z = t ++ z) :
    a = t := by
  have h2 : a.data ++ z.data = t.data ++ z.data := by
    simpa [String.data_append] using congrArg String.data h
  exact String.ext (List.append_cancel_right h2)

theorem sub_aliased_ne {t a : String} (f : FieldDecl) (ha : a ≠ t) :
    subAliasedOf t a f ≠ aliasedOf t f := by
  intro h
  apply ha
  unfold subAliasedOf aliasedOf aliasRenamedOf renamedOf tabledOf at h
  have h2 := congrArg String.data h
  simp only [String.data_append, List.append_assoc] at h2
  have h3 :=
    List.append_cancel_left (List.append_cancel_left (List.append_cancel_left
      (List.append_cancel_left h2)))
  exact String.ext (List.append_cancel_right h3)

/-! ### Claims -/

/--
C1: the per-field inclusion test of `update()` — `is_some() || is_none()` —
is exhaustive over the tri-state wrapper and always true, so the SET clause
includes every non-identifier attributed field in declaration order,
whatever the caller set.
-/
theorem c1_update_guard_always_true {V : Type} (s : Schema) (i : Inst V)
    (hlen : i.length = s.fields.length) :
    (∀ x : Null V, (x.is_some || x.is_none) = true) ∧
    buildUpdates (updatePairs s i) 0 =
      (allFragments 0 ((updatePairs s i).map Prod.fst), (updatePairs s i).length) ∧
    (updatePairs s i).map Prod.fst =
      s.fields.filter (fun f => f.name != "id" && f.isAttributed) := by
  refine ⟨Null.guard_true, ?b, updatePairs_map_fst s i hlen⟩
  simpa using buildUpdates_eq (updatePairs s i) 0

/-- Witness for C1 on the concrete `users` schema and a partly-set instance. -/
theorem c1_witness :
    uInst.length = userSchema.fields.length ∧
    buildUpdates (updatePairs userSchema uInst) 0 = (["name = $1", "email = $2"], 2) := by
  have h := (c1_update_guard_always_true userSchema uInst (by decide)).2.1
  refine ⟨by decide, ?r⟩
  rw [h]
  decide

/--
C3: the four global naming projections and the alias-scoped select
expression have exactly the formats of the spec, and for an alias distinct
from the table name the alias-scoped select expression differs from the
base-table one.
-/
theorem c3_naming_projections (s : Schema) (f : FieldDecl) (a : String)
    (ha : a ≠ s.tableName) :
    plainOf f = derive_snake_case f.name ∧
    tabledOf s.tableName f = s.tableName ++ "." ++ plainOf f ∧
    renamedOf s.tableName f = s.tableName ++ "_" ++ plainOf f ∧
    aliasedOf s.tableName f =
      s.tableName ++ "." ++ plainOf f ++ " AS " ++ (s.tableName ++ "_" ++ plainOf f) ∧
    subAliasedOf s.tableName a f =
      s.tableName ++ "." ++ plainOf f ++ " AS " ++ (a ++ "_" ++ plainOf f) ∧
    subAliasedOf s.tableName a f ≠ aliasedOf s.tableName f ∧
    allPlain s = (attributedFields s).map plainOf ∧
    allTabled s = (attributedFields s).map (tabledOf s.tableName) ∧
    allRenamed s = (attributedFields s).map (renamedOf s.tableName) ∧
    allAliased s = (attributedFields s).map (aliasedOf s.tableName) :=
  ⟨rfl, rfl, rfl, rfl, rfl, sub_aliased_ne f ha, rfl, rfl, rfl, rfl⟩

/-- Witness for C3: the spec's `users`/`owner` scenario for the `name` field. -/
theorem c3_witness :
    ("owner" : String) ≠ userSchema.tableName ∧
    plainOf ⟨"name", "Null<String>", true⟩ = "name" ∧
    tabledOf userSchema.tableName ⟨"name", "Null<String>", true⟩ = "users.name" ∧
    renamedOf userSchema.tableName ⟨"name", "Null<String>", true⟩ = "users_name" ∧
    aliasedOf userSchema.tableName ⟨"name", "Null<String>", true⟩ =
      "users.name AS users_name" ∧
    subAliasedOf userSchema.tableName "owner" ⟨"name", "Null<String>", true⟩ =
      "users.name AS owner_name" ∧
    subAliasedOf userSchema.tableName "owner" ⟨"name", "Null<String>", true⟩ ≠
      aliasedOf userSchema.tableName ⟨"name", "Null<String>", true⟩ := by
  refine ⟨by decide, by decide, by decide, by decide, by decide, by decide, ?ne⟩
  exact (c3_naming_projections userSchema ⟨"name", "Null<String>", true⟩ "owner"
    (by decide)).2.2.2.2.2.1

/--
C8: the generated getter of a (`Null`-wrapped) attributed field returns the
inner value when present and the type-appropriate default — `None` — when
the wrapper is unset or explicitly absent.
-/
theorem c8_getter_inner_default {V : Type} (v : V) :
    prop_getter (Null.value v) = some v ∧
    prop_getter (Null.undefined : Null V) = (default : Option V) ∧
    prop_getter (Null.null : Null V) = (default : Option V) ∧
    (default : Option V) = none :=
  ⟨rfl, rfl, rfl, rfl⟩

theorem fieldStates_parse {V : Type} (s : Schema) (r : Row V) :
    fieldStates s (parse s r) =
      s.fields.map (fun f =>
        (f, if f.isAttributed then Null.fromExcept (r (renamedOf s.tableName f))
            else Null.undefined)) :=
  zip_self_map _ _

/--
C4: `result` raises an error exactly when the fetch itself failed or the
parsed entity equals the all-unset default: a fetch error is wrapped by
`responder::query`, an empty parse yields the not-found message, and a
successful fetch with a non-empty parse returns the parsed entity.
-/
theorem c4_result_not_found {V ε : Type} [DecidableEq V] (s : Schema) :
    (∀ e : ε, parsersResult (V := V) s (Except.error e) = Except.error (RespErr.query e)) ∧
    (∀ r : Row V, is_empty s (parse s r) = false →
      parsersResult s (Except.ok r : Except ε (Row V)) = Except.ok (parse s r)) ∧
    (∀ r : Row V, is_empty s (parse s r) = true →
      parsersResult s (Except.ok r : Except ε (Row V)) =
        Except.error (RespErr.to (errorMsg s))) := by
  refine ⟨?q, ?ne, ?emp⟩
  · intro e
    rfl
  · intro r h
    simp [parsersResult, h]
  · intro r h
    simp [parsersResult, h]

/-- Witness for C4: failed fetch, non-empty parse, empty parse, concretely. -/
theorem c4_witness :
    parsersResult (V := String) (ε := Unit) userSchema (Except.error ()) =
      Except.error (RespErr.query ()) ∧
    parsersResult (ε := Unit) userSchema (Except.ok wRow) =
      Except.ok (parse userSchema wRow) ∧
    parsersResult (ε := Unit) userSchema (Except.ok wRowErr) =
      Except.error (RespErr.to (errorMsg userSchema)) := by
  have h := c4_result_not_found (V := String) (ε := Unit) userSchema
  exact ⟨h.1 (), h.2.1 wRow (by decide), h.2.2 wRowErr (by decide)⟩

/--
C7: the generated parse never aborts — it always returns a full-length
entity — and a per-column extraction outcome decides exactly that field's
state: a failure is substituted by the unset state, a success by the value.
-/
theorem c7_column_failure_isolated {V : Type} (s : Schema) (row : Row V) :
    (parse s row).length = s.fields.length ∧
    (∀ (f : FieldDecl) (x : Null V), (f, x) ∈ fieldStates s (parse s row) →
      f.isAttributed = true → row (renamedOf s.tableName f) = Except.error () →
      x = Null.undefined) ∧
    (∀ (f : FieldDecl) (x : Null V), (f, x) ∈ fieldStates s (parse s row) →
      f.isAttributed = true → ∀ v, row (renamedOf s.tableName f) = Except.ok v →
      x = Null.value v) := by
  refine ⟨by simp [parse], ?e, ?o⟩
  · intro f x hmem hA herr
    rw [fieldStates_parse] at hmem
    obtain ⟨f2, hf2, heq⟩ := List.mem_map.mp hmem
    injection heq with h1 h2
    subst h1
    subst h2
    simp [hA, herr, Null.fromExcept]
  · intro f x hmem hA v hok
    rw [fieldStates_parse] at hmem
    obtain ⟨f2, hf2, heq⟩ := List.mem_map.mp hmem
    injection heq with h1 h2
    subst h1
    subst h2
    simp [hA, hok, Null.fromExcept]

/--
Witness for C7: under a row where only `users_name` extracts, the parse is
full-length, the email field comes back unset and the name field holds the
value.
-/
theorem c7_witness :
    (parse userSchema wRow).length = userSchema.fields.length ∧
    (Null.fromExcept (wRow (renamedOf userSchema.tableName
      ⟨"email", "Null<String>", true⟩)) : Null String) = Null.undefined ∧
    (Null.fromExcept (wRow (renamedOf userSchema.tableName
      ⟨"name", "Null<String>", true⟩)) : Null String) = Null.value "Ann" := by
  have h := c7_column_failure_isolated userSchema wRow
  refine ⟨h.1, ?u, ?v⟩
  · exact h.2.1 ⟨"email", "Null<String>", true⟩ _ (by decide) (by decide) rfl
  · exact h.2.2 ⟨"name", "Null<String>", true⟩ _ (by decide) (by decide) "Ann" rfl

/--
C10: `clear_all` resets to the unset state exactly the cleable
(`Null`-typed) fields currently holding no value; any field holding a
present value — and any non-cleable field — is left unchanged, so a fully
populated instance comes back unmodified.
-/
theorem c10_clear_all_frame {V : Type} (s : Schema) (i : Inst V)
    (hlen : i.length = s.fields.length) :
    (∀ (f : FieldDecl) (x y : Null V),
      ((f, x), y) ∈ (fieldStates s i).zip (clear_all s i) →
      ((x.is_some = true → y = x) ∧
       (f.isNullable = false → y = x) ∧
       (f.isNullable = true → x.is_some = false → y = Null.undefined))) ∧
    ((∀ x ∈ i, x.is_some = true) → clear_all s i = i) := by
  constructor
  · intro f x y hmem
    unfold clear_all at hmem
    rw [zip_self_map] at hmem
    obtain ⟨p, hp, heq⟩ := List.mem_map.mp hmem
    injection heq with h1 h2
    subst h1
    subst h2
    refine ⟨fun hx => ?s, fun hN => ?n, fun hN hx => ?u⟩
    · simp [hx]
    · simp [hN]
    · simp [hN, hx]
  · intro hall
    unfold clear_all
    have hcg : (fieldStates s i).map
        (fun p => if p.1.isNullable && !(p.2.is_some) then Null.undefined else p.2) =
        (fieldStates s i).map Prod.snd := by
      apply List.map_congr_left
      intro p hp
      have hx : p.2.is_some = true := hall p.2 (List.of_mem_zip hp).2
      simp [hx]
    rw [hcg]
    exact List.map_snd_zip _ _ (by omega)

/-- Witness for C10: a fully populated `users` instance is unchanged. -/
theorem c10_witness :
    clear_all userSchema [Null.value "i1", Null.value "Ann", Null.value "e1"] =
      [Null.value "i1", Null.value "Ann", Null.value "e1"] :=
  (c10_clear_all_frame userSchema
    [Null.value "i1", Null.value "Ann", Null.value "e1"] (by decide)).2 (by decide)

/--
C2: `update()` builds one parameterized statement `UPDATE <table> SET
f1 = $1, …, fn = $n WHERE id = $(n+1) RETURNING <aliased select list>` over
the non-identifier attributed fields in declaration order, binds the field
getters in that order with the identifier last, and feeds the single fetched
row-or-error through the base `result`/`parse` pipeline over the renamed
projection.
-/
theorem c2_update_statement {V ε : Type} [DecidableEq V] (s : Schema)
    (db : String → List (Option V) → Except ε (Row V)) (i : Inst V)
    (hlen : i.length = s.fields.length) :
    updateSql s i =
      "\n                    UPDATE " ++ s.tableName ++ " SET "
        ++ String.intercalate ", "
            (allFragments 0 (s.fields.filter (fun f => f.name != "id" && f.isAttributed)))
        ++ " WHERE id = $"
        ++ toString
            ((s.fields.filter (fun f => f.name != "id" && f.isAttributed)).length + 1)
        ++ " RETURNING " ++ aliasALL s
        ++ "\n                " ∧
    updateBinds s i =
      (updatePairs s i).map (fun p => Null.take p.2) ++ [(idState s i).take] ∧
    update s db i = parsersResult s (db (updateSql s i) (updateBinds s i)) ∧
    (∀ r : Row V, db (updateSql s i) (updateBinds s i) = Except.ok r →
      is_empty s (parse s r) = false → update s db i = Except.ok (parse s r)) := by
  have hn : (updatePairs s i).length =
      (s.fields.filter (fun f => f.name != "id" && f.isAttributed)).length := by
    rw [← updatePairs_map_fst s i hlen, List.length_map]
  refine ⟨?sql, ?binds, rfl, ?ok⟩
  · simp [updateSql, buildUpdates_eq, updatePairs_map_fst s i hlen, hn]
  · unfold updateBinds
    rw [buildBinds_eq]
  · intro r hdb hne
    unfold update
    rw [hdb]
    simp [parsersResult, hne]

/-- Witness for C2 on the `users` schema: concrete statement, binds, pipeline. -/
theorem c2_witness :
    uInst.length = userSchema.fields.length ∧
    updateSql userSchema uInst =
      "\n                    UPDATE users SET name = $1, email = $2 WHERE id = $3 RETURNING users.id AS users_id, users.name AS users_name, users.email AS users_email\n                " ∧
    updateBinds userSchema uInst = [some "Ann", none, some "i1"] ∧
    update userSchema dbErr uInst = Except.error (RespErr.query ()) := by
  have h := c2_update_statement userSchema dbErr uInst (by decide)
  refine ⟨by decide, ?sql, ?binds, ?err⟩
  · rw [h.1]
    decide
  · rw [h.2.1]
    decide
  · rw [h.2.2.1]
    rfl

theorem attributedStates_parse {V : Type} (s : Schema) (r : Row V) :
    attributedStates s (parse s r) =
      (attributedFields s).map
        (fun f => Null.fromExcept (r (renamedOf s.tableName f))) := by
  unfold attributedStates attributedFields
  rw [fieldStates_parse]
  generalize s.fields = fs
  induction fs with
  | nil => rfl
  | cons f fs ih =>
    simp only [List.map_cons, List.filter_cons]
    by_cases hA : f.isAttributed = true
    · simp [hA, ih]
    · simp [hA, ih]

theorem rowOf_head {V : Type} (k : String) (ks : List String) (v : V) (vs : List V) :
    rowOf (k :: ks) (v :: vs) k = Except.ok v := by
  simp [rowOf]

theorem rowOf_tail {V : Type} (k k2 : String) (ks : List String) (v : V) (vs : List V)
    (hne : ¬ (k = k2)) :
    rowOf (k :: ks) (v :: vs) k2 = rowOf ks vs k2 := by
  simp [rowOf, hne]

theorem rowOf_keys {V : Type} (ks : List String) :
    ∀ vs : List V, ks.Nodup → ks.length = vs.length →
      ks.map (rowOf ks vs) = vs.map Except.ok := by
  induction ks with
  | nil =>
    intro vs _ hlen
    cases vs with
    | nil => rfl
    | cons v vs => simp at hlen
  | cons k ks ih =>
    intro vs hnd hlen
    cases vs with
    | nil => simp at hlen
    | cons v vs =>
      have hk : k ∉ ks := (List.nodup_cons.mp hnd).1
      have hnd2 := (List.nodup_cons.mp hnd).2
      have hlen2 : ks.length = vs.length := by simpa using hlen
      simp only [List.map_cons]
      rw [rowOf_head]
      have hmap : ks.map (rowOf (k :: ks) (v :: vs)) = ks.map (rowOf ks vs) := by
        apply List.map_congr_left
        intro k2 hk2
        refine rowOf_tail k k2 ks v vs (fun he => hk ?m)
        rw [he]
        exact hk2
      rw [hmap, ih vs hnd2 hlen2]

/--
C5: parsing a row whose columns are exactly the renamed projection keys,
populated with an entity's field values, and reading every attributed field
back through its getter returns the stored values unchanged.
-/
theorem c5_parse_round_trip {V : Type} (s : Schema) (vals : List V)
    (hnd : (allRenamed s).Nodup)
    (hlen : vals.length = (attributedFields s).length) :
    (attributedStates s (parse s (rowOf (allRenamed s) vals))).map prop_getter =
      vals.map some := by
  have hklen : (allRenamed s).length = vals.length := by
    unfold allRenamed
    rw [List.length_map]
    exact hlen.symm
  have hkeys := rowOf_keys (allRenamed s) vals hnd hklen
  rw [attributedStates_parse, List.map_map]
  unfold allRenamed at hkeys ⊢
  rw [List.map_map] at hkeys
  have hstep : (attributedFields s).map
      (prop_getter ∘ fun f => Null.fromExcept
        (rowOf ((attributedFields s).map (renamedOf s.tableName)) vals
          (renamedOf s.tableName f))) =
      ((attributedFields s).map
        (rowOf ((attributedFields s).map (renamedOf s.tableName)) vals ∘
          renamedOf s.tableName)).map
        (fun e => prop_getter (Null.fromExcept e)) := by
    rw [List.map_map]
    rfl
  rw [hstep, hkeys, List.map_map]
  exact List.map_congr_left (fun v hv => rfl)

/-- Witness for C5: the `users` schema round-trips three concrete values. -/
theorem c5_witness :
    (allRenamed userSchema).Nodup ∧
    (attributedStates userSchema
        (parse userSchema
          (rowOf (allRenamed userSchema) ["i1", "Ann", "e1"]))).map prop_getter =
      [some "i1", some "Ann", some "e1"] := by
  have h := c5_parse_round_trip userSchema ["i1", "Ann", "e1"] (by decide) (by decide)
  refine ⟨by decide, ?r⟩
  rw [h]
  decide

theorem findId_set {V : Type} (x : Null V) :
    ∀ (fs : List FieldDecl) (i : List (Null V)),
      ((fs.zip i).find? (fun p => p.1.name == "id")).isSome = true →
      (((fs.zip ((fs.zip i).map
            (fun p => if p.1.name == "id" then x else p.2))).find?
          (fun p => p.1.name == "id")).map Prod.snd) = some x := by
  intro fs
  induction fs with
  | nil =>
    intro i h
    simp at h
  | cons f fs ih =>
    intro i h
    cases i with
    | nil => simp at h
    | cons v vs =>
      simp only [List.zip_cons_cons, List.map_cons]
      cases hf : (f.name == "id") with
      | true => simp [List.find?_cons, hf]
      | false =>
        have hmain : List.find? (fun q : FieldDecl × Null V => q.1.name == "id")
            ((f, v) :: fs.zip vs) =
            List.find? (fun q : FieldDecl × Null V => q.1.name == "id") (fs.zip vs) :=
          @List.find?_cons_of_neg _ _ _ _ (by simp [hf])
        rw [List.zip_cons_cons, hmain] at h
        have hset : List.find? (fun q : FieldDecl × Null V => q.1.name == "id")
            ((f, if false = true then x else v) ::
              fs.zip ((fs.zip vs).map
                (fun p => if p.1.name == "id" then x else p.2))) =
            List.find? (fun q : FieldDecl × Null V => q.1.name == "id")
              (fs.zip ((fs.zip vs).map
                (fun p => if p.1.name == "id" then x else p.2))) :=
          @List.find?_cons_of_neg _ _ _ _ (by simp [hf])
        rw [hset]
        exact ih vs h

theorem idState_setIdField {V : Type} (s : Schema) (i : Inst V) (x : Null V)
    (hid : ((fieldStates s i).find? (fun p => p.1.name == "id")).isSome = true) :
    idState s (setIdField s i x) = x := by
  have h := findId_set x s.fields i hid
  unfold idState setIdField fieldStates
  cases hfind : (s.fields.zip ((s.fields.zip i).map
      (fun p => if p.1.name == "id" then x else p.2))).find?
      (fun p => p.1.name == "id") with
  | none =>
    rw [hfind] at h
    simp at h
  | some p =>
    rw [hfind] at h
    simp at h
    exact h

/--
C6 as stated is false: `set_insert_id` also overwrites a *present*
identifier when that identifier is the empty string — the guard is
`self.id().unwrap_or_default().is_empty()`, not absence of the wrapper.
-/
theorem c6_counterexample :
    Null.is_some
      (idState userSchema [Null.value "", Null.undefined, Null.undefined]) = true ∧
    set_insert_id ⟨"s1", "m1", "l1", "x1"⟩ "sm" userSchema
        [Null.value "", Null.undefined, Null.undefined] ≠
      [Null.value "", Null.undefined, Null.undefined] := by
  exact ⟨by decide, by decide⟩

/--
C6 amended: `set_insert_id` assigns a fresh identifier (size class chosen by
the parameter) exactly when the current identifier is absent *or empty*,
leaves a present non-empty identifier unchanged, and — provided the chosen
fresh identifier is non-empty — a second invocation leaves the instance of
the first invocation unchanged, so both calls yield the same identifier.
-/
theorem c6_amended (g g2 : IdGen) (size : String) (s : Schema) (i : Inst String)
    (hid : ((fieldStates s i).find? (fun p => p.1.name == "id")).isSome = true)
    (hg : ¬ (chooseId g size = "")) :
    (((idState s i).take.getD "").isEmpty = false → set_insert_id g size s i = i) ∧
    (((idState s i).take.getD "").isEmpty = true →
      set_insert_id g size s i = setIdField s i (Null.new (chooseId g size))) ∧
    set_insert_id g2 size s (set_insert_id g size s i) = set_insert_id g size s i := by
  refine ⟨?noop, ?assign, ?idem⟩
  · intro h
    simp [set_insert_id, h]
  · intro h
    simp [set_insert_id, h]
  · cases hEmpty : ((idState s i).take.getD "").isEmpty
    · have h1 : set_insert_id g size s i = i := by simp [set_insert_id, hEmpty]
      rw [h1]
      simp [set_insert_id, hEmpty]
    · have h1 : set_insert_id g size s i = setIdField s i (Null.new (chooseId g size)) := by
        simp [set_insert_id, hEmpty]
      have h2 : idState s (setIdField s i (Null.new (chooseId g size))) =
          Null.new (chooseId g size) := idState_setIdField s i _ hid
      have h3 : (chooseId g size).isEmpty = false := by
        cases hb : (chooseId g size).isEmpty
        · rfl
        · exact absurd ((chooseId g size).isEmpty_iff.mp hb) hg
      rw [h1]
      simp only [set_insert_id]
      rw [h2]
      simp [Null.new, Null.take, h3]

/-- Witness for C6 amended: two sequential calls on an unset id agree. -/
theorem c6_witness :
    set_insert_id ⟨"s2", "m2", "l2", "x2"⟩ "sm" userSchema
        (set_insert_id ⟨"s1", "m1", "l1", "x1"⟩ "sm" userSchema
          [Null.undefined, Null.undefined, Null.undefined]) =
      set_insert_id ⟨"s1", "m1", "l1", "x1"⟩ "sm" userSchema
        [Null.undefined, Null.undefined, Null.undefined] :=
  (c6_amended ⟨"s1", "m1", "l1", "x1"⟩ ⟨"s2", "m2", "l2", "x2"⟩ "sm" userSchema
    [Null.undefined, Null.undefined, Null.undefined] (by decide) (by decide)).2.2

/--
C9 as stated is false: on the rendered text of a two-parameter generic such
as `HashMap<String,String>` the pattern matches with captured inner text
"String,String", which is not a valid type expression, and generation
aborts — although the claim promises the inner type `Inner` for every
pattern match and a fatal error only when the whole text is unparseable
(here the whole text is a perfectly valid type).
-/
theorem c9_counterexample :
    regexCapture "HashMap<String,String>" = some "String,String" ∧
    synOracle "HashMap<String,String>" = some "HashMap<String,String>" ∧
    derive_parse_inner_type synOracle "HashMap<String,String>" =
      Except.error "Invalid type string" := by
  refine ⟨by decide, by decide, ?e⟩
  rfl

/--
C9 amended: when the text matches `Wrapper<Inner>` *and the captured inner
text itself parses as a valid type expression*, the inner type is `Inner`;
when there is no match and the whole text parses, the inner type is the
declared type; when the relevant text (the captured inner on a match, the
whole text otherwise) does not parse, generation aborts with a fatal error.
-/
theorem c9_inner_type (τ : Type) (parse_str : String → Option τ) (input : String) :
    (∀ inner t, regexCapture input = some inner → parse_str inner = some t →
      derive_parse_inner_type parse_str input = Except.ok t) ∧
    (∀ inner, regexCapture input = some inner → parse_str inner = none →
      derive_parse_inner_type parse_str input = Except.error "Invalid type string") ∧
    (∀ t, regexCapture input = none → parse_str input = some t →
      derive_parse_inner_type parse_str input = Except.ok t) ∧
    (regexCapture input = none → parse_str input = none →
      derive_parse_inner_type parse_str input = Except.error "Invalid type string") := by
  refine ⟨?a, ?b, ?c, ?d⟩
  · intro inner t hc hp
    simp [derive_parse_inner_type, hc, hp]
  · intro inner hc hp
    simp [derive_parse_inner_type, hc, hp]
  · intro t hc hp
    simp [derive_parse_inner_type, hc, hp]
  · intro hc hp
    simp [derive_parse_inner_type, hc, hp]

/-- Witness for C9: a wrapped and an unwrapped type text under a total parser. -/
theorem c9_witness :
    derive_parse_inner_type (fun t => some t) "Null<String>" = Except.ok "String" ∧
    derive_parse_inner_type (fun t => some t) "i64" = Except.ok "i64" := by
  have h1 := c9_inner_type String (fun t => some t) "Null<String>"
  have h2 := c9_inner_type String (fun t => some t) "i64"
  exact ⟨h1.1 "String" "String" (by decide) rfl, h2.2.2.1 "i64" (by decide) rfl⟩

end RsModDerives
